import Mathlib

/-!
Verification of `src/shapefile_reporter.py` (shapefile audit report tool).

The script walks a directory tree, reads each `.shp` file's schema with
fiona, optionally refines it with geopandas, collects one flat record per
declared field, sorts the records, blanks repeated folder/filename cells for
display, writes a styled spreadsheet and highlights folder-group starts.

The embedding below models one run of `process_shapefiles` over the list of
files produced by the directory walk, plus the button handler around it.
Filesystem and UI effects are abstracted: each walked file is a `ShpFile`
carrying the outcome the two reader libraries would produce for it.
-/

namespace ShapefileReporter

/-! ## Data model -/

/-- One row of the report (`filas.append({...})`, lines 77-84 and 112-119):
base folder, shapefile name, geometry type, field name, data type, length.
`longitud` is an `Int` because Python's `int()` can produce negative values
for a declared length such as `"str:-5"`. -/
structure Record where
  carpetaBase : String
  nombreShapefile : String
  tipoGeometria : String
  nombreCampo : String
  tipoDato : String
  longitud : Int
deriving Repr, DecidableEq

/-- One column of the geopandas frame: its pandas dtype classification
(`pd.api.types.is_object_dtype or is_string_dtype`, line 103) and its cell
values, `none` standing for a null (`NaN`) entry dropped by `dropna()`.
Cells are modelled as the strings `astype(str)` yields for them. -/
structure ColumnData where
  isStringLike : Bool
  values : List (Option String)
deriving Repr, DecidableEq

/-- Result of a successful `gpd.read_file` (lines 64-72): the frame's columns
and, when the frame is non-empty, the dominant geometry type
`gdf.geom_type.mode()[0]`; `geomMode = none` models an empty frame. -/
structure Gdf where
  cols : List (String × ColumnData)
  geomMode : Option String
deriving Repr, DecidableEq

/-- One file met by the `os.walk` loop. `raiz` is the directory that contains
it and `archivo` its name; since `archivo` has no path separator,
`os.path.dirname(os.path.join(raiz, archivo)) = raiz`, so `carpeta_base`
(line 48) is `raiz`. `schema` is the outcome of the fiona schema read
(properties in declaration order plus the schema geometry, or the raised
exception's message); `gdf` is `none` when `gpd.read_file` raised. -/
structure ShpFile where
  raiz : String
  archivo : String
  schema : Except String (List (String × String) × String)
  gdf : Option Gdf
deriving Repr

/-! ## Helpers mirroring Python primitives -/

/-- Python `archivo.lower()` (line 42). Lean's `Char.toLower` lowercases ASCII
letters, which matches Python on the ASCII filenames at stake. -/
def pyLower (s : String) : String := String.mk (s.data.map Char.toLower)

/-- The filter `archivo.lower().endswith(".shp")` (line 42), on the character lists. -/
def isShp (archivo : String) : Bool :=
  List.isSuffixOf ".shp".data (pyLower archivo).data

/-- Digit run of a Python integer literal after the optional sign: ASCII
digits, optionally separated by single underscores that must sit between two
digits. Returns the digits with underscores removed, `none` if malformed. -/
def pyDigits : List Char → Option (List Char)
  | [] => none
  | [c] => if c.isDigit then some [c] else none
  | c :: '_' :: rest => if c.isDigit then (pyDigits rest).map (fun ds => c :: ds) else none
  | c :: rest => if c.isDigit then (pyDigits rest).map (fun ds => c :: ds) else none

/-- Numeric value of a digit list. -/
def digitsToNat (l : List Char) : Nat := l.foldl (fun n c => 10 * n + (c.toNat - 48)) 0

/-- Python `str.strip()` around the literal: drop leading and trailing whitespace. -/
def stripWs (l : List Char) : List Char :=
  ((l.dropWhile Char.isWhitespace).reverse.dropWhile Char.isWhitespace).reverse

/-- Python `int(s)` on a string (line 95): strip surrounding whitespace, then
an optional sign followed by digits (with underscores allowed between
digits); anything else raises `ValueError`, modelled as `none`. Python also
accepts non-ASCII decimal digits; those cannot occur in fiona type strings
and are not modelled. -/
def pyIntStr? (s : String) : Option Int :=
  match stripWs s.data with
  | '-' :: rest => (pyDigits rest).map (fun ds => -(digitsToNat ds : Int))
  | '+' :: rest => (pyDigits rest).map (fun ds => (digitsToNat ds : Int))
  | l => (pyDigits l).map (fun ds => (digitsToNat ds : Int))

/-- The test `":" in ftype` (line 91). -/
def hasColon (s : String) : Bool := s.data.contains ':'

/-- First component of `ftype.split(":", 1)` (line 92). -/
def beforeColon (s : String) : String := String.mk (s.data.takeWhile (fun c => c != ':'))

/-- Second component of `ftype.split(":", 1)` (line 92). -/
def afterColon (s : String) : String := String.mk ((s.data.dropWhile (fun c => c != ':')).drop 1)

/-! ## Field processing (lines 86-119) -/

/-- Lines 87-97: `tipo = str(ftype)`, `longitud = 0`; when a colon is present
the string is split at the first colon into type and length part, and a
length part rejected by `int()` leaves the length at 0. -/
def parseType (ftype : String) : String × Int :=
  if hasColon ftype then
    match pyIntStr? (afterColon ftype) with
    | some n => (beforeColon ftype, n)
    | none => (beforeColon ftype, 0)
  else (ftype, 0)

/-- Lines 100-107: when the field is a frame column of string/object dtype
whose non-null values are not empty, the maximum `len` of those values
(as strings); otherwise nothing. -/
def maxObservedLen (g : Gdf) (fname : String) : Option Nat :=
  match g.cols.lookup fname with
  | none => none
  | some col =>
    if col.isStringLike then
      match col.values.filterMap id with
      | [] => none
      | v :: vs => some (((v :: vs).map String.length).foldl Nat.max 0)
    else none

/-- Lines 99-110: the declared length, overridden by the observed maximum
string length exactly when the declared length is 0 and an observed maximum
is available. -/
def resolveLength (declared : Int) (g? : Option Gdf) (fname : String) : Int :=
  match g? with
  | none => declared
  | some g =>
    match maxObservedLen g fname with
    | none => declared
    | some m => if declared = 0 then (m : Int) else declared

/-- Lines 56-69: fiona's schema geometry, overridden by the dominant real
geometry when the geopandas read succeeded on a non-empty frame. -/
def resolvedGeom (g? : Option Gdf) (schemaGeom : String) : String :=
  match g? with
  | some g =>
    match g.geomMode with
    | some m => m
    | none => schemaGeom
  | none => schemaGeom

/-- The warning `f"⚠️ Error fiona en {archivo}: {e}"` appended on a schema
read failure (line 60). -/
def fionaWarn (archivo e : String) : String :=
  "⚠️ Error fiona en " ++ archivo ++ ": " ++ e

/-- The record built for one declared field (lines 86-119). -/
def fieldRecord (f : ShpFile) (tipoGeom fname ftype : String) : Record :=
  { carpetaBase := f.raiz
    nombreShapefile := f.archivo
    tipoGeometria := tipoGeom
    nombreCampo := fname
    tipoDato := (parseType ftype).1
    longitud := resolveLength (parseType ftype).2 f.gdf fname }

/-- The placeholder record for a shapefile without fields (lines 75-84). -/
def placeholderRecord (f : ShpFile) (tipoGeom : String) : Record :=
  { carpetaBase := f.raiz
    nombreShapefile := f.archivo
    tipoGeometria := tipoGeom
    nombreCampo := "(Sin atributos)"
    tipoDato := ""
    longitud := 0 }

/-- Lines 42-119, body of the walk loop for one file: the records it appends
to `filas` and the warnings it appends to `logs`. -/
def processFile (f : ShpFile) : List Record × List String :=
  if isShp f.archivo then
    match f.schema with
    | .error e => ([], [fionaWarn f.archivo e])
    | .ok (props, schemaGeom) =>
      let tipoGeom := resolvedGeom f.gdf schemaGeom
      if props.isEmpty then
        ([placeholderRecord f tipoGeom], [])
      else
        (props.map (fun p => fieldRecord f tipoGeom p.1 p.2), [])
  else ([], [])

/-- Contents of `filas` after the walk, for the walk's file order. -/
def allRecords (files : List ShpFile) : List Record :=
  files.flatMap (fun f => (processFile f).1)

/-- Contents of `logs` after the walk. -/
def allLogs (files : List ShpFile) : List String :=
  files.flatMap (fun f => (processFile f).2)

/-! ## Sorting (line 131) -/

/-- Python string comparison (used by the pandas sort on string columns):
strict lexicographic order on the code points. -/
def charListLt : List Char → List Char → Prop
  | _, [] => False
  | [], _ :: _ => True
  | a :: as, b :: bs => a < b ∨ (a = b ∧ charListLt as bs)

instance charListLt.decidable : (l m : List Char) → Decidable (charListLt l m)
  | [], [] => Decidable.isFalse (fun h => h)
  | _ :: _, [] => Decidable.isFalse (fun h => h)
  | [], _ :: _ => Decidable.isTrue trivial
  | a :: as, b :: bs =>
    have : Decidable (charListLt as bs) := charListLt.decidable as bs
    inferInstanceAs (Decidable (a < b ∨ (a = b ∧ charListLt as bs)))

/-- Strict Python `<` on strings. -/
def strLt (s t : String) : Prop := charListLt s.data t.data

instance : DecidableRel strLt :=
  fun s t => inferInstanceAs (Decidable (charListLt s.data t.data))

/-- Python `<=` on strings. -/
def strLe (s t : String) : Prop := strLt s t ∨ s = t

instance : DecidableRel strLe :=
  fun s t => inferInstanceAs (Decidable (strLt s t ∨ s = t))

/-- Sort key of `df.sort_values(by=["Carpeta Base", "Nombre Shapefile",
"Nombre Campo"])` (line 131). -/
def recKey (r : Record) : String × String × String :=
  (r.carpetaBase, r.nombreShapefile, r.nombreCampo)

/-- Row comparison of the sort: lexicographic on the key, column by column,
as pandas compares rows of a multi-column string sort. -/
def keyLe (a b : Record) : Prop :=
  strLt a.carpetaBase b.carpetaBase ∨
    (a.carpetaBase = b.carpetaBase ∧
      (strLt a.nombreShapefile b.nombreShapefile ∨
        (a.nombreShapefile = b.nombreShapefile ∧
          strLe a.nombreCampo b.nombreCampo)))

instance : DecidableRel keyLe := fun a b =>
  inferInstanceAs (Decidable (strLt a.carpetaBase b.carpetaBase ∨
    (a.carpetaBase = b.carpetaBase ∧
      (strLt a.nombreShapefile b.nombreShapefile ∨
        (a.nombreShapefile = b.nombreShapefile ∧
          strLe a.nombreCampo b.nombreCampo)))))

/-- Strict version of `keyLe`: the keys themselves differ. -/
def keyLt (a b : Record) : Prop := keyLe a b ∧ recKey a ≠ recKey b

/-- Line 131. The sort keys are unique in every actual run (see
`allRecords_keys_nodup`), so any comparison sort computes this list;
insertion sort is used as the executable model. -/
def sortRecords (l : List Record) : List Record := l.insertionSort keyLe

/-- The declared field names of a file's schema (empty when the read
failed). fiona schemas are Python dicts, so these names are distinct. -/
def schemaFieldNames (f : ShpFile) : List String :=
  match f.schema with
  | Except.ok (props, _) => props.map Prod.fst
  | Except.error _ => []

/-! ## Display copy (lines 134-136) -/

/-- Pandas `Series.mask(Series.duplicated(), "")` walked left to right: `seen` holds
the values of the earlier rows; a cell equal to one of them is blanked. -/
def blankDupsAux : List String → List String → List String
  | _, [] => []
  | seen, x :: xs => (if x ∈ seen then "" else x) :: blankDupsAux (x :: seen) xs

/-- Lines 135-136: pandas `duplicated()` with default `keep="first"` marks
every occurrence after the first of each distinct value, anywhere earlier in
the column, not merely in the immediately preceding row. -/
def blankDups (l : List String) : List String := blankDupsAux [] l

/-- The sorted `Carpeta Base` column. -/
def folderCol (rs : List Record) : List String :=
  (sortRecords rs).map Record.carpetaBase

/-- The sorted `Nombre Shapefile` column. -/
def shapefileCol (rs : List Record) : List String :=
  (sortRecords rs).map Record.nombreShapefile

/-- The `Carpeta Base` column of `df_export` (line 135). -/
def displayFolderCol (rs : List Record) : List String := blankDups (folderCol rs)

/-- The `Nombre Shapefile` column of `df_export` (line 136). -/
def displayShapefileCol (rs : List Record) : List String := blankDups (shapefileCol rs)

/-! ## Row highlighting (lines 160-172) -/

/-- The highlight loop: `prev_folder = None`; a data row is highlighted when
its (blanked) folder cell is truthy (non-empty) and differs from
`prev_folder`, and only then `prev_folder` is updated to it. -/
def highlightsAux : Option String → List String → List Bool
  | _, [] => []
  | prev, c :: cs =>
    if c ≠ "" ∧ prev ≠ some c then true :: highlightsAux (some c) cs
    else false :: highlightsAux prev cs

/-- Which data rows receive the bold-and-fill format, one flag per row of the
display copy's folder column. -/
def highlights (cells : List String) : List Bool := highlightsAux none cells

/-- Spec-side description for C8 (not taken from the source): row `i` of a
column is a group start when `i = 0` or its value differs from row `i-1`. -/
def groupStartsFrom : String → List String → List Bool
  | _, [] => []
  | p, x :: xs => (decide (x ≠ p)) :: groupStartsFrom x xs

/-- Spec-side description for C8: flags the first row of each group of equal
consecutive values. -/
def groupStarts : List String → List Bool
  | [] => []
  | x :: xs => true :: groupStartsFrom x xs

/-- Consecutive-duplicate blanking (the spec's wording for C1, not the
source's computation): a cell is blanked exactly when it equals the
immediately preceding cell. -/
def blankConsecFrom : String → List String → List String
  | _, [] => []
  | p, x :: xs => (if x = p then "" else x) :: blankConsecFrom x xs

/-- Consecutive-duplicate blanking of a whole column (spec-side for C1). -/
def blankConsec : List String → List String
  | [] => []
  | x :: xs => x :: blankConsecFrom x xs

/-! ## Button handler (lines 194-235) -/

/-- Every name the script ever assigns at module scope or inside the
`process_btn` handler (imports, the function, the widgets and the handler's
locals). `temp_dir` is referenced at line 234 but appears nowhere here. -/
def scriptAssignedNames : List String :=
  ["st", "os", "gpd", "fiona", "pd", "Workbook", "Font", "PatternFill",
   "get_column_letter", "BytesIO", "zipfile", "tempfile", "shutil",
   "process_shapefiles", "col1", "col2", "input_folder", "process_btn",
   "excel_data", "df_result", "logs", "cols", "log"]

/-- Python name lookup: an unassigned name raises `NameError`. -/
def evalPyName (x : String) : Except String Unit :=
  if x ∈ scriptAssignedNames then Except.ok ()
  else Except.error ("NameError: name '" ++ x ++ "' is not defined")

/-- What the handler rendered to the page: the report (sorted records plus
warnings) when records were found, nothing on the invalid-path error or the
zero-records warning. -/
structure RunOutput where
  report : Option (List Record × List String)
deriving Repr, DecidableEq

/-- Lines 194-235: the `process_btn` handler. With an invalid path only the
error message is shown; with a valid path the scan runs and the report (or
the zero-records warning) is rendered. In both cases the cleanup block at
lines 233-235 then evaluates the name `temp_dir`. Rendered output is kept
separately from the final outcome because page elements emitted before an
exception stay visible. -/
def processBtnHandler (validPath : Bool) (files : List ShpFile) :
    RunOutput × Except String Unit :=
  if validPath then
    let recs := sortRecords (allRecords files)
    let warnings := allLogs files
    let rendered : RunOutput :=
      if recs.isEmpty then { report := none } else { report := some (recs, warnings) }
    (rendered, evalPyName "temp_dir")
  else ({ report := none }, evalPyName "temp_dir")

/-! ## Concrete sample inputs, used to evaluate the theorems -/

/-- Three already-sorted records: the same shapefile name under folders "a"
and "c" with a different name under "b" in between. -/
def sampleRows : List Record :=
  [⟨"a", "z.shp", "Point", "f1", "str", 1⟩,
   ⟨"b", "w.shp", "Point", "f1", "str", 1⟩,
   ⟨"c", "z.shp", "Point", "f1", "str", 1⟩]

/-- A frame with a string column and a numeric column. -/
def sampleGdf : Gdf :=
  ⟨[("name", ⟨true, [some "abc"]⟩), ("pop", ⟨false, [some "123"]⟩)], some "Point"⟩

/-- A healthy shapefile with schema `{name: str:10, pop: int}`. -/
def sampleFileA : ShpFile :=
  ⟨"base/a", "rios.shp", Except.ok ([("name", "str:10"), ("pop", "int")], "Point"),
   some sampleGdf⟩

/-- A shapefile whose fiona schema read raises. -/
def sampleFileBad : ShpFile := ⟨"base/b", "roto.shp", Except.error "no existe", none⟩

/-- A shapefile with zero attribute fields. -/
def sampleFileEmpty : ShpFile := ⟨"base/c", "vacio.shp", Except.ok ([], "Polygon"), none⟩

/-- A shapefile with a field declared `str:0` whose column holds strings of
length up to 7. -/
def sampleFileZero : ShpFile :=
  ⟨"base/z", "obs.shp", Except.ok ([("obs", "str:0")], "Point"),
   some ⟨[("obs", ⟨true, [some "abcdefg", some "ab", none]⟩)], some "Point"⟩⟩

/-- A file the walk meets that is not a shapefile. -/
def sampleNonShp : ShpFile := ⟨"base/d", "notas.txt", Except.error "x", none⟩

/-! ## Order lemmas for the sort comparison -/

theorem charListLt_asymm : ∀ (l m : List Char), charListLt l m → charListLt m l → False := by
  intro l
  induction l with
  | nil =>
    intro m h1 h2
    cases m with
    | nil => exact h1
    | cons b bs => exact h2
  | cons a as ih =>
    intro m h1 h2
    cases m with
    | nil => exact h1
    | cons b bs =>
      rcases h1 with h1 | ⟨rfl, h1⟩
      · rcases h2 with h2 | ⟨heq, h2⟩
        · exact lt_asymm h1 h2
        · exact absurd h1 (heq ▸ lt_irrefl b)
      · rcases h2 with h2 | ⟨_, h2⟩
        · exact lt_irrefl a h2
        · exact ih bs h1 h2

theorem charListLt_trans : ∀ (l m n : List Char),
    charListLt l m → charListLt m n → charListLt l n := by
  intro l
  induction l with
  | nil =>
    intro m n h1 h2
    cases n with
    | nil =>
      cases m with
      | nil => exact h1
      | cons b bs => exact h2
    | cons c cs => exact trivial
  | cons a as ih =>
    intro m n h1 h2
    cases m with
    | nil => exact absurd h1 (fun h => h)
    | cons b bs =>
      cases n with
      | nil => exact h2
      | cons c cs =>
        rcases h1 with h1 | ⟨rfl, h1⟩
        · rcases h2 with h2 | ⟨rfl, h2⟩
          · exact Or.inl (lt_trans h1 h2)
          · exact Or.inl h1
        · rcases h2 with h2 | ⟨rfl, h2⟩
          · exact Or.inl h2
          · exact Or.inr ⟨rfl, ih bs cs h1 h2⟩

theorem charListLt_trichot : ∀ (l m : List Char), charListLt l m ∨ l = m ∨ charListLt m l := by
  intro l
  induction l with
  | nil =>
    intro m
    cases m with
    | nil => exact Or.inr (Or.inl rfl)
    | cons b bs => exact Or.inl trivial
  | cons a as ih =>
    intro m
    cases m with
    | nil => exact Or.inr (Or.inr trivial)
    | cons b bs =>
      rcases lt_trichotomy a b with h | rfl | h
      · exact Or.inl (Or.inl h)
      · rcases ih bs with h2 | rfl | h2
        · exact Or.inl (Or.inr ⟨rfl, h2⟩)
        · exact Or.inr (Or.inl rfl)
        · exact Or.inr (Or.inr (Or.inr ⟨rfl, h2⟩))
      · exact Or.inr (Or.inr (Or.inl h))

theorem str_eq_of_data_eq : ∀ {s t : String}, s.data = t.data → s = t
  | ⟨_⟩, ⟨_⟩, rfl => rfl

theorem strLt_asymm {s t : String} (h1 : strLt s t) (h2 : strLt t s) : False :=
  charListLt_asymm _ _ h1 h2

theorem strLt_trans {s t u : String} (h1 : strLt s t) (h2 : strLt t u) : strLt s u :=
  charListLt_trans _ _ _ h1 h2

theorem strLt_trichot (s t : String) : strLt s t ∨ s = t ∨ strLt t s := by
  rcases charListLt_trichot s.data t.data with h | h | h
  · exact Or.inl h
  · exact Or.inr (Or.inl (str_eq_of_data_eq h))
  · exact Or.inr (Or.inr h)

theorem strLe_refl (s : String) : strLe s s := Or.inr rfl

theorem strLe_trans {s t u : String} (h1 : strLe s t) (h2 : strLe t u) : strLe s u := by
  rcases h1 with h1 | rfl
  · rcases h2 with h2 | rfl
    · exact Or.inl (strLt_trans h1 h2)
    · exact Or.inl h1
  · exact h2

theorem strLe_antisymm {s t : String} (h1 : strLe s t) (h2 : strLe t s) : s = t := by
  rcases h1 with h1 | rfl
  · rcases h2 with h2 | rfl
    · exact absurd h2 (fun h => strLt_asymm h1 h)
    · rfl
  · rfl

theorem keyLe_carpeta {a b : Record} (h : keyLe a b) : strLe a.carpetaBase b.carpetaBase := by
  rcases h with h | ⟨h, _⟩
  · exact Or.inl h
  · exact Or.inr h

theorem keyLe_total (a b : Record) : keyLe a b ∨ keyLe b a := by
  rcases strLt_trichot a.carpetaBase b.carpetaBase with h | h | h
  · exact Or.inl (Or.inl h)
  · rcases strLt_trichot a.nombreShapefile b.nombreShapefile with h2 | h2 | h2
    · exact Or.inl (Or.inr ⟨h, Or.inl h2⟩)
    · rcases strLt_trichot a.nombreCampo b.nombreCampo with h3 | h3 | h3
      · exact Or.inl (Or.inr ⟨h, Or.inr ⟨h2, Or.inl h3⟩⟩)
      · exact Or.inl (Or.inr ⟨h, Or.inr ⟨h2, Or.inr h3⟩⟩)
      · exact Or.inr (Or.inr ⟨h.symm, Or.inr ⟨h2.symm, Or.inl h3⟩⟩)
    · exact Or.inr (Or.inr ⟨h.symm, Or.inl h2⟩)
  · exact Or.inr (Or.inl h)

theorem keyLe_trans {a b c : Record} (h1 : keyLe a b) (h2 : keyLe b c) : keyLe a c := by
  rcases h1 with h1 | ⟨e1, h1⟩
  · rcases h2 with h2 | ⟨e2, _⟩
    · exact Or.inl (strLt_trans h1 h2)
    · exact Or.inl (e2 ▸ h1)
  · rcases h2 with h2 | ⟨e2, h2⟩
    · exact Or.inl (e1 ▸ h2)
    · refine Or.inr ⟨e1.trans e2, ?_⟩
      rcases h1 with h1 | ⟨f1, h1⟩
      · rcases h2 with h2 | ⟨f2, _⟩
        · exact Or.inl (strLt_trans h1 h2)
        · exact Or.inl (f2 ▸ h1)
      · rcases h2 with h2 | ⟨f2, h2⟩
        · exact Or.inl (f1 ▸ h2)
        · exact Or.inr ⟨f1.trans f2, strLe_trans h1 h2⟩

theorem keyLe_antisymm_key {a b : Record} (h1 : keyLe a b) (h2 : keyLe b a) :
    recKey a = recKey b := by
  rcases h1 with h1 | ⟨e1, h1⟩
  · rcases h2 with h2 | ⟨e2, _⟩
    · exact absurd h2 (fun h => strLt_asymm h1 h)
    · exact absurd h1 (e2 ▸ fun h => strLt_asymm h h)
  · rcases h2 with h2 | ⟨_, h2⟩
    · exact absurd h2 (e1 ▸ fun h => strLt_asymm h h)
    · rcases h1 with h1 | ⟨f1, h1⟩
      · rcases h2 with h2 | ⟨f2, _⟩
        · exact absurd h2 (fun h => strLt_asymm h1 h)
        · exact absurd h1 (f2 ▸ fun h => strLt_asymm h h)
      · rcases h2 with h2 | ⟨_, h2⟩
        · exact absurd h2 (f1 ▸ fun h => strLt_asymm h h)
        · have e3 : a.nombreCampo = b.nombreCampo := strLe_antisymm h1 h2
          unfold recKey
          rw [e1, f1, e3]

instance : IsTotal Record keyLe := ⟨keyLe_total⟩

instance : IsTrans Record keyLe := ⟨fun _ _ _ => keyLe_trans⟩

instance : IsAntisymm Record keyLt :=
  ⟨fun _ _ h1 h2 => absurd (keyLe_antisymm_key h1.1 h2.1) h1.2⟩

/-! ## Sorting lemmas -/

theorem sortRecords_sorted (l : List Record) : (sortRecords l).Sorted keyLe :=
  List.sorted_insertionSort keyLe l

theorem sortRecords_perm (l : List Record) : (sortRecords l).Perm l :=
  List.perm_insertionSort keyLe l

theorem sorted_keyLt_of_nodup_keys {l : List Record} (hs : l.Sorted keyLe)
    (hn : (l.map recKey).Nodup) : l.Sorted keyLt := by
  have hp : l.Pairwise (fun a b => recKey a ≠ recKey b) := List.pairwise_map.mp hn
  exact List.Pairwise.and hs hp

theorem sortRecords_eq_of_perm {l₁ l₂ : List Record} (h : l₁.Perm l₂)
    (hn : (l₁.map recKey).Nodup) : sortRecords l₁ = sortRecords l₂ := by
  have p1 := sortRecords_perm l₁
  have p2 := sortRecords_perm l₂
  have hn1 : ((sortRecords l₁).map recKey).Nodup := ((p1.map recKey).nodup_iff).mpr hn
  have hn2 : ((sortRecords l₂).map recKey).Nodup :=
    ((p2.map recKey).nodup_iff).mpr (((h.map recKey).nodup_iff).mp hn)
  exact List.eq_of_perm_of_sorted (r := keyLt) (p1.trans (h.trans p2.symm))
    (sorted_keyLt_of_nodup_keys (sortRecords_sorted l₁) hn1)
    (sorted_keyLt_of_nodup_keys (sortRecords_sorted l₂) hn2)

/-! ## Structure of `processFile` and `allRecords` -/

theorem processFile_not_shp {f : ShpFile} (h : isShp f.archivo = false) :
    processFile f = ([], []) := by
  unfold processFile
  rw [h]
  simp

theorem processFile_error {f : ShpFile} {e : String} (hshp : isShp f.archivo = true)
    (he : f.schema = Except.error e) :
    processFile f = ([], [fionaWarn f.archivo e]) := by
  unfold processFile
  rw [hshp, he]
  simp

theorem processFile_empty_props {f : ShpFile} {g : String} (hshp : isShp f.archivo = true)
    (hs : f.schema = Except.ok ([], g)) :
    processFile f = ([placeholderRecord f (resolvedGeom f.gdf g)], []) := by
  unfold processFile
  rw [hshp, hs]
  simp

theorem processFile_props {f : ShpFile} {p : String × String} {ps : List (String × String)}
    {g : String} (hshp : isShp f.archivo = true)
    (hs : f.schema = Except.ok (p :: ps, g)) :
    processFile f =
      ((p :: ps).map (fun q => fieldRecord f (resolvedGeom f.gdf g) q.1 q.2), []) := by
  unfold processFile
  rw [hshp, hs]
  simp

theorem mem_processFile_fields {f : ShpFile} {r : Record} (h : r ∈ (processFile f).1) :
    r.carpetaBase = f.raiz ∧ r.nombreShapefile = f.archivo ∧ isShp f.archivo = true := by
  by_cases hshp : isShp f.archivo = true
  · rcases hschema : f.schema with e | ⟨props, g⟩
    · rw [processFile_error hshp hschema] at h
      simp at h
    · cases props with
      | nil =>
        rw [processFile_empty_props hshp hschema] at h
        simp at h
        subst h
        exact ⟨rfl, rfl, hshp⟩
      | cons p ps =>
        rw [processFile_props hshp hschema] at h
        obtain ⟨q, _, rfl⟩ := List.mem_map.mp h
        exact ⟨rfl, rfl, hshp⟩
  · rw [processFile_not_shp (Bool.eq_false_iff.mpr hshp)] at h
    simp at h

theorem processFile_keys_nodup {f : ShpFile} (hf : (schemaFieldNames f).Nodup) :
    (((processFile f).1).map recKey).Nodup := by
  by_cases hshp : isShp f.archivo = true
  · rcases hschema : f.schema with e | ⟨props, g⟩
    · rw [processFile_error hshp hschema]
      simp
    · cases props with
      | nil =>
        rw [processFile_empty_props hshp hschema]
        simp
      | cons p ps =>
        rw [processFile_props hshp hschema]
        have hnames : ((p :: ps).map Prod.fst).Nodup := by
          unfold schemaFieldNames at hf
          rw [hschema] at hf
          exact hf
        have hmapeq :
            ((p :: ps).map (fun q => fieldRecord f (resolvedGeom f.gdf g) q.1 q.2)).map recKey =
              ((p :: ps).map Prod.fst).map (fun n => (f.raiz, f.archivo, n)) := by
          simp [List.map_map, Function.comp, fieldRecord, recKey]
        simp only [hmapeq]
        refine List.Nodup.map ?_ hnames
        intro x y hxy
        simpa using hxy
  · rw [processFile_not_shp (Bool.eq_false_iff.mpr hshp)]
    simp

theorem allRecords_nil : allRecords [] = [] := rfl

theorem allRecords_cons (f : ShpFile) (fs : List ShpFile) :
    allRecords (f :: fs) = (processFile f).1 ++ allRecords fs :=
  List.flatMap_cons f fs _

theorem allLogs_cons (f : ShpFile) (fs : List ShpFile) :
    allLogs (f :: fs) = (processFile f).2 ++ allLogs fs :=
  List.flatMap_cons f fs _

theorem mem_allRecords {files : List ShpFile} {r : Record} (h : r ∈ allRecords files) :
    ∃ f ∈ files, r ∈ (processFile f).1 :=
  List.mem_flatMap.mp h

/-- The sort keys of an actual run are pairwise distinct: two files of one
walk never share both directory and name, and the declared field names of
one schema are the keys of a Python dict, hence distinct. -/
theorem allRecords_keys_nodup : ∀ (files : List ShpFile),
    (files.map (fun f => (f.raiz, f.archivo))).Nodup →
    (∀ f ∈ files, (schemaFieldNames f).Nodup) →
    ((allRecords files).map recKey).Nodup := by
  intro files
  induction files with
  | nil =>
    intro _ _
    simp [allRecords]
  | cons f fs ih =>
    intro hpairs hprops
    rw [allRecords_cons, List.map_append]
    rw [List.map_cons, List.nodup_cons] at hpairs
    refine List.nodup_append.mpr
      ⟨processFile_keys_nodup (hprops f (by simp)),
       ih hpairs.2 (fun g hg => hprops g (by simp [hg])), ?_⟩
    intro k hk1 hk2
    obtain ⟨r, hr, rfl⟩ := List.mem_map.mp hk1
    obtain ⟨r2, hr2, hkeq⟩ := List.mem_map.mp hk2
    obtain ⟨g, hg, hrg⟩ := mem_allRecords hr2
    obtain ⟨hb1, hn1, _⟩ := mem_processFile_fields hr
    obtain ⟨hb2, hn2, _⟩ := mem_processFile_fields hrg
    apply hpairs.1
    have e1 : r2.carpetaBase = r.carpetaBase := congrArg (fun k => k.1) hkeq
    have e2 : r2.nombreShapefile = r.nombreShapefile := congrArg (fun k => k.2.1) hkeq
    refine List.mem_map.mpr ⟨g, hg, ?_⟩
    rw [← hb2, ← hn2, e1, e2, hb1, hn1]

/-! ## Display-copy lemmas -/

theorem blankDupsAux_get? : ∀ (l seen : List String) (i : Nat),
    (blankDupsAux seen l).get? i =
      (l.get? i).map (fun x => if x ∈ seen ∨ x ∈ l.take i then "" else x) := by
  intro l
  induction l with
  | nil =>
    intro seen i
    simp [blankDupsAux]
  | cons x xs ih =>
    intro seen i
    cases i with
    | zero =>
      simp [blankDupsAux]
    | succ n =>
      show (blankDupsAux (x :: seen) xs).get? n = _
      rw [ih (x :: seen) n]
      cases hx : xs.get? n with
      | none => rw [List.get?_cons_succ, hx, Option.map_none', Option.map_none']
      | some y =>
        simp only [Option.map_some', List.get?_cons_succ, hx, List.take_succ_cons]
        congr 1
        apply if_congr _ rfl rfl
        simp [List.mem_cons]
        tauto

theorem mem_take_iff_exists : ∀ (l : List String) (i : Nat) (x : String),
    x ∈ l.take i ↔ ∃ j, j < i ∧ l.get? j = some x := by
  intro l
  induction l with
  | nil =>
    intro i x
    simp
  | cons y ys ih =>
    intro i x
    cases i with
    | zero => simp
    | succ n =>
      rw [List.take_succ_cons, List.mem_cons, ih n x]
      constructor
      · rintro (rfl | ⟨j, hj, hget⟩)
        · exact ⟨0, Nat.succ_pos n, rfl⟩
        · exact ⟨j + 1, Nat.succ_lt_succ hj, hget⟩
      · rintro ⟨j, hj, hget⟩
        cases j with
        | zero =>
          left
          exact (Option.some.inj hget).symm
        | succ m =>
          right
          exact ⟨m, Nat.lt_of_succ_lt_succ hj, hget⟩

theorem blankDups_get?_blank_iff {l : List String} (hne : ∀ x ∈ l, x ≠ "") {i : Nat}
    (hi : i < l.length) :
    ((blankDups l).get? i = some "" ↔ ∃ j, j < i ∧ l.get? j = l.get? i) := by
  obtain ⟨x, hx⟩ : ∃ x, l.get? i = some x := ⟨l.get ⟨i, hi⟩, List.get?_eq_get hi⟩
  have hget := blankDupsAux_get? l [] i
  rw [hx] at hget
  simp only [Option.map_some', List.not_mem_nil, false_or] at hget
  have hxne : x ≠ "" := hne x (List.get?_mem hx)
  rw [blankDups, hget, hx]
  by_cases hmem : x ∈ l.take i
  · rw [if_pos hmem]
    simp only [true_iff]
    obtain ⟨j, hj, hget2⟩ := (mem_take_iff_exists l i x).mp hmem
    exact ⟨j, hj, hget2⟩
  · rw [if_neg hmem]
    constructor
    · intro h
      exact absurd (Option.some.inj h) hxne
    · rintro ⟨j, hj, hget2⟩
      exact absurd ((mem_take_iff_exists l i x).mpr ⟨j, hj, hget2⟩) hmem

theorem blankDupsAux_eq_consec : ∀ (xs : List String) (p : String) (seen : List String),
    p ∈ seen → (∀ s ∈ seen, strLe s p) → List.Pairwise strLe (p :: xs) →
    blankDupsAux seen xs = blankConsecFrom p xs := by
  intro xs
  induction xs with
  | nil =>
    intro p seen _ _ _
    rfl
  | cons x xs' ih =>
    intro p seen hp hle hpair
    have hpx : strLe p x := (List.pairwise_cons.mp hpair).1 x (by simp)
    have hpair' : List.Pairwise strLe (x :: xs') := (List.pairwise_cons.mp hpair).2
    show (if x ∈ seen then "" else x) :: blankDupsAux (x :: seen) xs' =
      (if x = p then "" else x) :: blankConsecFrom x xs'
    congr 1
    · by_cases hx : x = p
      · rw [if_pos hx, if_pos (hx ▸ hp)]
      · rw [if_neg hx, if_neg (fun h => hx (strLe_antisymm (hle x h) hpx))]
    · refine ih x (x :: seen) (by simp) ?_ hpair'
      intro s hs
      rcases List.mem_cons.mp hs with rfl | hs
      · exact strLe_refl s
      · exact strLe_trans (hle s hs) hpx

theorem blankDups_eq_consec {l : List String} (h : List.Pairwise strLe l) :
    blankDups l = blankConsec l := by
  cases l with
  | nil => rfl
  | cons x xs =>
    show (if x ∈ ([] : List String) then "" else x) :: blankDupsAux [x] xs =
      x :: blankConsecFrom x xs
    rw [if_neg (by simp)]
    congr 1
    refine blankDupsAux_eq_consec xs x [x] (by simp) ?_ h
    intro s hs
    rcases List.mem_singleton.mp hs with rfl
    exact strLe_refl s

/-! ## Highlighting lemmas -/

theorem highlightsAux_consec : ∀ (xs : List String) (p : String), (∀ x ∈ xs, x ≠ "") →
    highlightsAux (some p) (blankConsecFrom p xs) = groupStartsFrom p xs := by
  intro xs
  induction xs with
  | nil =>
    intro p _
    rfl
  | cons x xs' ih =>
    intro p hne
    have hx : x ≠ "" := hne x (by simp)
    have ih' := ih x (fun y hy => hne y (by simp [hy]))
    by_cases hxp : x = p
    · subst hxp
      show highlightsAux (some x) ((if x = x then "" else x) :: blankConsecFrom x xs') =
        (decide (x ≠ x)) :: groupStartsFrom x xs'
      rw [if_pos rfl]
      show (if ("" ≠ "" ∧ some x ≠ some "") then
          true :: highlightsAux (some "") (blankConsecFrom x xs')
        else false :: highlightsAux (some x) (blankConsecFrom x xs')) = _
      rw [if_neg (fun h => h.1 rfl)]
      rw [ih']
      congr 1
      simp
    · show highlightsAux (some p) ((if x = p then "" else x) :: blankConsecFrom x xs') = _
      rw [if_neg hxp]
      show (if (x ≠ "" ∧ some p ≠ some x) then
          true :: highlightsAux (some x) (blankConsecFrom x xs')
        else false :: highlightsAux (some p) (blankConsecFrom x xs')) = _
      rw [if_pos ⟨hx, fun h => hxp (Option.some.inj h).symm⟩]
      rw [ih']
      congr 1
      simp [hxp]

theorem highlights_blankConsec {l : List String} (hne : ∀ x ∈ l, x ≠ "") :
    highlights (blankConsec l) = groupStarts l := by
  cases l with
  | nil => rfl
  | cons x xs =>
    show highlightsAux none (x :: blankConsecFrom x xs) = true :: groupStartsFrom x xs
    show (if (x ≠ "" ∧ (none : Option String) ≠ some x) then
        true :: highlightsAux (some x) (blankConsecFrom x xs)
      else false :: highlightsAux none (blankConsecFrom x xs)) = _
    rw [if_pos ⟨hne x (by simp), by simp⟩]
    rw [highlightsAux_consec xs x (fun y hy => hne y (by simp [hy]))]

/-! ## Miscellaneous arithmetic lemmas -/

theorem le_foldl_max : ∀ (l : List Nat) (acc : Nat), acc ≤ l.foldl Nat.max acc := by
  intro l
  induction l with
  | nil => intro acc; exact Nat.le_refl acc
  | cons x xs ih =>
    intro acc
    exact Nat.le_trans (Nat.le_max_left acc x) (ih (Nat.max acc x))

theorem mem_le_foldl_max : ∀ (l : List Nat) (acc a : Nat), a ∈ l → a ≤ l.foldl Nat.max acc := by
  intro l
  induction l with
  | nil =>
    intro acc a ha
    simp at ha
  | cons x xs ih =>
    intro acc a ha
    rcases List.mem_cons.mp ha with rfl | ha
    · exact Nat.le_trans (Nat.le_max_right acc a) (le_foldl_max xs (Nat.max acc a))
    · exact ih (Nat.max acc x) a ha

theorem foldl_max_le : ∀ (l : List Nat) (acc a : Nat),
    acc ≤ a → (∀ b ∈ l, b ≤ a) → l.foldl Nat.max acc ≤ a := by
  intro l
  induction l with
  | nil =>
    intro acc a hacc _
    exact hacc
  | cons x xs ih =>
    intro acc a hacc hub
    exact ih (Nat.max acc x) a (Nat.max_le.mpr ⟨hacc, hub x (by simp)⟩)
      (fun b hb => hub b (by simp [hb]))

theorem foldl_max_eq {l : List Nat} {a : Nat} (hmem : a ∈ l) (hub : ∀ b ∈ l, b ≤ a) :
    l.foldl Nat.max 0 = a :=
  Nat.le_antisymm (foldl_max_le l 0 a (Nat.zero_le a) hub) (mem_le_foldl_max l 0 a hmem)

/-! ## Length-resolution helper lemmas -/

theorem resolveLength_some (d : Int) (g : Gdf) (fname : String) :
    resolveLength d (some g) fname =
      (match maxObservedLen g fname with
        | none => d
        | some m => if d = 0 then (m : Int) else d) := rfl

theorem resolveLength_nonzero {d : Int} (hd : d ≠ 0) (g? : Option Gdf) (fname : String) :
    resolveLength d g? fname = d := by
  cases g? with
  | none => rfl
  | some g =>
    rw [resolveLength_some]
    cases maxObservedLen g fname with
    | none => rfl
    | some m => exact if_neg hd

theorem resolveLength_no_obs {g? : Option Gdf} {fname : String}
    (h : ∀ g, g? = some g → maxObservedLen g fname = none) (d : Int) :
    resolveLength d g? fname = d := by
  cases g? with
  | none => rfl
  | some g => rw [resolveLength_some, h g rfl]

theorem resolveLength_zero_obs {g : Gdf} {fname : String} {m : Nat}
    (h : maxObservedLen g fname = some m) : resolveLength 0 (some g) fname = (m : Int) := by
  rw [resolveLength_some, h]
  rfl

/-! ## The claims -/

/-- C1, counterexample. The claim says a cell of the display copy is blanked
if and only if it equals the value in the same column of the immediately
preceding sorted row, and that the first row of every (folder, filename)
group keeps its values. With the same shapefile name "z.shp" under folders
"a" and "c" and "w.shp" under "b" in between, the sorted filename column is
["z.shp", "w.shp", "z.shp"], yet the display copy blanks row 2 — a row that
differs from its predecessor "w.shp" and is the first row of its
(folder, filename) group. -/
theorem c1_counterexample :
    shapefileCol sampleRows = ["z.shp", "w.shp", "z.shp"] ∧
    displayShapefileCol sampleRows = ["z.shp", "w.shp", ""] := by decide

/-- C1, amended. In the display copy a folder or filename cell is blanked if
and only if the same value occurs in the same column in some EARLIER row of
the sorted table (pandas `duplicated(keep="first")`), not merely in the
immediately preceding row: the first occurrence of each distinct value keeps
its value, and every later occurrence is blanked — even the first row of a
later (folder, filename) group that reuses an earlier shapefile name.
(Folder and filename cells are non-empty in every real run: the folder is a
walked directory path and the filename ends in ".shp".) -/
theorem c1_blank_iff_earlier_occurrence (rs : List Record)
    (hfolder : ∀ r ∈ rs, r.carpetaBase ≠ "")
    (hfile : ∀ r ∈ rs, r.nombreShapefile ≠ "")
    (i : Nat) (hi : i < rs.length) :
    ((displayFolderCol rs).get? i = some "" ↔
      ∃ j, j < i ∧ (folderCol rs).get? j = (folderCol rs).get? i) ∧
    ((displayShapefileCol rs).get? i = some "" ↔
      ∃ j, j < i ∧ (shapefileCol rs).get? j = (shapefileCol rs).get? i) := by
  have hlen : (sortRecords rs).length = rs.length := (sortRecords_perm rs).length_eq
  unfold displayFolderCol displayShapefileCol
  constructor
  · refine blankDups_get?_blank_iff ?_ ?_
    · intro x hx
      unfold folderCol at hx
      obtain ⟨r, hr, rfl⟩ := List.mem_map.mp hx
      exact hfolder r ((sortRecords_perm rs).subset hr)
    · unfold folderCol
      rw [List.length_map, hlen]
      exact hi
  · refine blankDups_get?_blank_iff ?_ ?_
    · intro x hx
      unfold shapefileCol at hx
      obtain ⟨r, hr, rfl⟩ := List.mem_map.mp hx
      exact hfile r ((sortRecords_perm rs).subset hr)
    · unfold shapefileCol
      rw [List.length_map, hlen]
      exact hi

/-- C1, amended, witness at the counterexample rows: row 2's filename cell
is blanked because "z.shp" already occurred at row 0. -/
theorem c1_amended_witness :
    (displayShapefileCol sampleRows).get? 2 = some "" ↔
      ∃ j, j < 2 ∧ (shapefileCol sampleRows).get? j = (shapefileCol sampleRows).get? 2 :=
  (c1_blank_iff_earlier_occurrence sampleRows (by decide) (by decide) 2 (by decide)).2

/-- C2. The claim says a run on a valid existing path raises no fatal error
and the report is produced with no exception escaping. The code contradicts
it: the cleanup block at lines 233-235 runs on every press of the process
button and evaluates the never-assigned name `temp_dir`, so the script ends
with an uncaught `NameError` on valid and invalid paths alike (the report
widgets rendered before that line do remain visible). -/
theorem c2_temp_dir_name_error (validPath : Bool) (files : List ShpFile) :
    (processBtnHandler validPath files).2 =
      Except.error "NameError: name 'temp_dir' is not defined" := by
  cases validPath <;> rfl

/-- C3. The final table is sorted ascending by the key (base folder,
shapefile name, field name) and is a permutation of the collected records;
and for walks meeting the same files in any order — with the run-invariants
that no two files share (directory, name) and each schema's field names are
distinct (they are Python dict keys) — the sorted table is identical. -/
theorem c3_sorted_and_traversal_independent (files₁ files₂ : List ShpFile)
    (hperm : files₁.Perm files₂)
    (hpairs : (files₁.map (fun f => (f.raiz, f.archivo))).Nodup)
    (hprops : ∀ f ∈ files₁, (schemaFieldNames f).Nodup) :
    (sortRecords (allRecords files₁)).Sorted keyLe ∧
    (sortRecords (allRecords files₁)).Perm (allRecords files₁) ∧
    sortRecords (allRecords files₁) = sortRecords (allRecords files₂) := by
  refine ⟨sortRecords_sorted _, sortRecords_perm _, ?_⟩
  exact sortRecords_eq_of_perm (List.Perm.flatMap_right _ hperm)
    (allRecords_keys_nodup files₁ hpairs hprops)

/-- C3, witness: two concrete files visited in either order produce the same
sorted table. -/
theorem c3_witness :
    sortRecords (allRecords [sampleFileBad, sampleFileA]) =
      sortRecords (allRecords [sampleFileA, sampleFileBad]) :=
  (c3_sorted_and_traversal_independent [sampleFileBad, sampleFileA]
    [sampleFileA, sampleFileBad] (List.Perm.swap sampleFileA sampleFileBad [])
    (by decide) (by decide)).2.2

/-- C4. For a field whose parsed declared length is 0 (declared `:0`, absent,
or unparseable) whose column could be read and is of string/object dtype
with non-null values of maximum string length `L`, the record's resolved
length equals `L`. -/
theorem c4_zero_length_resolves_to_observed_max (f : ShpFile)
    (tipoGeom fname ftype : String) (g : Gdf) (col : ColumnData)
    (w : String) (ws : List String) (L : Nat)
    (hgdf : f.gdf = some g)
    (hdecl : (parseType ftype).2 = 0)
    (hcol : g.cols.lookup fname = some col)
    (hstr : col.isStringLike = true)
    (hvals : col.values.filterMap id = w :: ws)
    (hmem : L ∈ (w :: ws).map String.length)
    (hub : ∀ n ∈ (w :: ws).map String.length, n ≤ L) :
    (fieldRecord f tipoGeom fname ftype).longitud = (L : Int) := by
  have hmax : maxObservedLen g fname =
      some (((w :: ws).map String.length).foldl Nat.max 0) := by
    unfold maxObservedLen
    rw [hcol]
    show (if col.isStringLike = true then _ else _) = _
    rw [if_pos hstr, hvals]
  show resolveLength (parseType ftype).2 f.gdf fname = (L : Int)
  rw [hdecl, hgdf, resolveLength_zero_obs hmax, foldl_max_eq hmem hub]

/-- C4, witness: declared length 0, observed strings of lengths 7 and 2,
resolved length 7. -/
theorem c4_witness : (fieldRecord sampleFileZero "Point" "obs" "str:0").longitud = (7 : Int) :=
  c4_zero_length_resolves_to_observed_max sampleFileZero "Point" "obs" "str:0"
    ⟨[("obs", ⟨true, [some "abcdefg", some "ab", none]⟩)], some "Point"⟩
    ⟨true, [some "abcdefg", some "ab", none]⟩ "abcdefg" ["ab"] 7
    rfl (by decide) rfl rfl rfl (by decide) (by decide)

/-- C5. A shapefile with schema `{name: str:10, pop: int}` yields exactly one
record per declared field; `name` keeps type "str" and length 10 whatever
the observed data (the declared length is non-zero), and `pop` keeps type
"int" with length 0 (its column is numeric, so no string-length fallback
applies). -/
theorem c5_declared_type_length_preserved (f : ShpFile) (g : String)
    (hshp : isShp f.archivo = true)
    (hschema : f.schema = Except.ok ([("name", "str:10"), ("pop", "int")], g))
    (hpop : ∀ gdf, f.gdf = some gdf → maxObservedLen gdf "pop" = none) :
    (processFile f).1 =
      [{ carpetaBase := f.raiz, nombreShapefile := f.archivo,
         tipoGeometria := resolvedGeom f.gdf g, nombreCampo := "name",
         tipoDato := "str", longitud := 10 },
       { carpetaBase := f.raiz, nombreShapefile := f.archivo,
         tipoGeometria := resolvedGeom f.gdf g, nombreCampo := "pop",
         tipoDato := "int", longitud := 0 }] := by
  have h1 : parseType "str:10" = ("str", 10) := by decide
  have h2 : parseType "int" = ("int", 0) := by decide
  rw [processFile_props hshp hschema]
  simp only [List.map_cons, List.map_nil, fieldRecord, h1, h2]
  rw [resolveLength_nonzero (by decide) f.gdf "name", resolveLength_no_obs hpop 0]

/-- C5, witness at a concrete file whose `name` column holds strings of
length 3: the declared length 10 is not overridden. -/
theorem c5_witness :
    (processFile sampleFileA).1 =
      [⟨"base/a", "rios.shp", "Point", "name", "str", 10⟩,
       ⟨"base/a", "rios.shp", "Point", "pop", "int", 0⟩] :=
  c5_declared_type_length_preserved sampleFileA "Point" (by decide) rfl
    (fun gdf h => by
      have hg : sampleGdf = gdf := Option.some.inj h
      subst hg
      decide)

/-- C6. A `.shp` file whose fiona schema read raises contributes zero records
and exactly one warning naming it, and the records and warnings of all other
files are unaffected. -/
theorem c6_schema_failure_isolated (pre post : List ShpFile) (f : ShpFile) (e : String)
    (hshp : isShp f.archivo = true) (hbad : f.schema = Except.error e) :
    (processFile f).1 = [] ∧
    (processFile f).2 = [fionaWarn f.archivo e] ∧
    allRecords (pre ++ f :: post) = allRecords (pre ++ post) ∧
    allLogs (pre ++ f :: post) = allLogs pre ++ fionaWarn f.archivo e :: allLogs post := by
  have hpf := processFile_error hshp hbad
  refine ⟨by rw [hpf], by rw [hpf], ?_, ?_⟩
  · unfold allRecords
    rw [List.flatMap_append, List.flatMap_cons, List.flatMap_append]
    rw [show (processFile f).1 = [] from by rw [hpf]]
    simp
  · unfold allLogs
    rw [List.flatMap_append, List.flatMap_cons]
    rw [show (processFile f).2 = [fionaWarn f.archivo e] from by rw [hpf]]
    simp

/-- C6, witness: a failing file after a healthy one leaves the records as if
absent and appends its single warning. -/
theorem c6_witness :
    allRecords [sampleFileA, sampleFileBad] = allRecords [sampleFileA] ∧
    allLogs [sampleFileA, sampleFileBad] =
      allLogs [sampleFileA] ++ fionaWarn "roto.shp" "no existe" :: allLogs [] :=
  ⟨(c6_schema_failure_isolated [sampleFileA] [] sampleFileBad "no existe"
      (by decide) rfl).2.2.1,
   (c6_schema_failure_isolated [sampleFileA] [] sampleFileBad "no existe"
      (by decide) rfl).2.2.2⟩

/-- C7. A shapefile whose schema declares zero attribute fields emits exactly
one placeholder record with field name "(Sin atributos)", empty data type
and length 0. -/
theorem c7_placeholder_record (f : ShpFile) (g : String)
    (hshp : isShp f.archivo = true) (hschema : f.schema = Except.ok ([], g)) :
    (processFile f).1 = [placeholderRecord f (resolvedGeom f.gdf g)] ∧
    (placeholderRecord f (resolvedGeom f.gdf g)).nombreCampo = "(Sin atributos)" ∧
    (placeholderRecord f (resolvedGeom f.gdf g)).tipoDato = "" ∧
    (placeholderRecord f (resolvedGeom f.gdf g)).longitud = 0 :=
  ⟨by rw [processFile_empty_props hshp hschema], rfl, rfl, rfl⟩

/-- C7, witness at a concrete empty-schema file. -/
theorem c7_witness :
    (processFile sampleFileEmpty).1 =
      [placeholderRecord sampleFileEmpty (resolvedGeom sampleFileEmpty.gdf "Polygon")] :=
  (c7_placeholder_record sampleFileEmpty "Polygon" (by decide) rfl).1

/-- C8. A data row of the spreadsheet receives the bold-and-fill highlight if
and only if it is the first row of a folder group of the sorted table: the
highlight pass over the blanked folder column marks exactly the rows whose
folder differs from the previous row's folder (folder cells are non-empty in
every real run — they are walked directory paths). -/
theorem c8_highlight_iff_group_start (rs : List Record)
    (hne : ∀ r ∈ rs, r.carpetaBase ≠ "") :
    highlights (displayFolderCol rs) = groupStarts (folderCol rs) := by
  have hsorted := sortRecords_sorted rs
  have hcol : List.Pairwise strLe (folderCol rs) := by
    unfold folderCol
    exact List.pairwise_map.mpr (hsorted.imp (fun h => keyLe_carpeta h))
  have hne' : ∀ x ∈ folderCol rs, x ≠ "" := by
    intro x hx
    unfold folderCol at hx
    obtain ⟨r, hr, rfl⟩ := List.mem_map.mp hx
    exact hne r ((sortRecords_perm rs).subset hr)
  unfold displayFolderCol
  rw [blankDups_eq_consec hcol]
  exact highlights_blankConsec hne'

/-- C8, witness: three folders "a", "b", "c" — every row is a group start and
each is highlighted. -/
theorem c8_witness :
    highlights (displayFolderCol sampleRows) = groupStarts (folderCol sampleRows) :=
  c8_highlight_iff_group_start sampleRows (by decide)

/-- C9. A compound type string whose part after the first colon is not a
valid Python integer literal parses to length 0 instead of raising, and
length resolution then behaves exactly as if no explicit length had been
declared. -/
theorem c9_invalid_length_parses_to_zero (ftype : String)
    (hcolon : hasColon ftype = true)
    (hbad : pyIntStr? (afterColon ftype) = none) :
    (parseType ftype).2 = 0 ∧
    ∀ (g? : Option Gdf) (fname : String),
      resolveLength (parseType ftype).2 g? fname = resolveLength 0 g? fname := by
  have h2 : (parseType ftype).2 = 0 := by
    unfold parseType
    rw [if_pos hcolon, hbad]
  exact ⟨h2, fun g? fname => by rw [h2]⟩

/-- C9, witness at `"float:24.15"`: parsed length 0, and resolution falls
back to the observed maximum exactly as for a length-less declaration. -/
theorem c9_witness :
    (parseType "float:24.15").2 = 0 ∧
    resolveLength (parseType "float:24.15").2 (some sampleGdf) "name" =
      resolveLength 0 (some sampleGdf) "name" :=
  ⟨(c9_invalid_length_parses_to_zero "float:24.15" (by decide) (by decide)).1,
   (c9_invalid_length_parses_to_zero "float:24.15" (by decide) (by decide)).2
     (some sampleGdf) "name"⟩

/-- C10. Every record names a file ending in ".shp" case-insensitively, a
non-`.shp` file contributes neither records nor warnings, and an upper-case
".SHP" name passes the filter. -/
theorem c10_only_shp_files (files : List ShpFile) :
    (∀ r ∈ allRecords files, isShp r.nombreShapefile = true) ∧
    (∀ f : ShpFile, isShp f.archivo = false → processFile f = ([], [])) ∧
    isShp "EJEMPLO.SHP" = true := by
  refine ⟨?_, fun f hf => processFile_not_shp hf, by decide⟩
  intro r hr
  obtain ⟨f, _, hrf⟩ := mem_allRecords hr
  obtain ⟨_, hn, hs⟩ := mem_processFile_fields hrf
  rw [hn]
  exact hs

/-- C10, witness: a `.txt` file contributes nothing, and ".SHP" is accepted. -/
theorem c10_witness :
    processFile sampleNonShp = ([], []) ∧ isShp "EJEMPLO.SHP" = true :=
  ⟨(c10_only_shp_files []).2.1 sampleNonShp (by decide), (c10_only_shp_files []).2.2⟩

end ShapefileReporter
